import Mathlib

/-!
Verification of the core data-flow of the-noble-quran (a Raycast extension):
a shallow embedding of `src/utils/api.ts` and the validation logic of
`src/quran.tsx`, with theorems about the edition-merge, cache, favorites
and filter operations.

Network requests and cache reads are modelled by passing the remote
response / the cache contents as explicit arguments; the count of network
requests, storage writes, per-entry fetches and logged failures is returned
alongside the functional result where a claim is about those effects.
-/

/-- A chapter record as returned by the `/surah` endpoint
(`Surah` in `src/types`): number, names, verse count, revelation type. -/
structure Surah where
  number : Nat
  englishName : String
  englishNameTranslation : String
  numberOfAyahs : Nat
  revelationType : String
deriving Repr, DecidableEq

/-- A verse record (`Ayah` in `src/types`): global number, translation text,
verse-within-chapter number, liturgical metadata, optional Arabic text and an
optional back-reference to the owning chapter. -/
structure Ayah where
  number : Nat
  text : String
  numberInSurah : Nat
  juz : Nat
  page : Nat
  hizbQuarter : Nat
  ruku : Nat
  manzil : Nat
  sajda : Bool
  arabicText : Option String := none
  surah : Option Surah := none
deriving Repr, DecidableEq

/-- One element of the multi-edition response of
`/surah/{n}/editions/{e1},{e2}`: an edition identifier together with the
edition's verse list (`{ edition: { identifier }, ayahs }` in `getAyahs`). -/
structure EditionPayload where
  identifier : String
  ayahs : List Ayah
deriving Repr, DecidableEq

/-- One element of the multi-edition response of
`/ayah/{ref}/editions/{e1},{e2}` (`AyahEditionResponse` in the source:
`{ edition: { identifier } } & Ayah`, flattened here into an identifier plus
the verse fields). -/
structure AyahEditionResponse where
  edition : String
  ayah : Ayah
deriving Repr, DecidableEq

/-- The Arabic-edition verse list extracted from a multi-edition response:
`arabicEdition?.ayahs ?? []` after `editions.find(... === DEFAULT_ARABIC_EDITION)`. -/
def arabicAyahsOf (editions : List EditionPayload) (arabicEditionId : String) : List Ayah :=
  ((editions.find? fun e => e.identifier == arabicEditionId).map EditionPayload.ayahs).getD []

/-- `new Map(list.map(a => [a.numberInSurah, a.text])).get k`: for duplicate
keys a JS `Map` keeps the last insertion, so `get` is a find over the
reversed list. -/
def mapGetLast (l : List Ayah) (k : Nat) : Option String :=
  (l.reverse.find? fun a => a.numberInSurah == k).map Ayah.text

/-- `getAyahs` from `src/utils/api.ts` (lines 297-319), with the parsed remote
response passed in: demultiplex the two editions by identifier, return `[]`
when the user's translation edition is absent, and otherwise attach to each
translation verse the Arabic text of the verse sharing its `numberInSurah`. -/
def getAyahs (userEdition arabicEditionId : String) (editions : List EditionPayload) : List Ayah :=
  match editions.find? fun e => e.identifier == userEdition with
  | none => []
  | some translationEdition =>
      translationEdition.ayahs.map fun ayah =>
        { ayah with arabicText := mapGetLast (arabicAyahsOf editions arabicEditionId) ayah.numberInSurah }

/-- One cache slot as `cache.get` followed by `JSON.parse` observes it:
absent, present but failing to deserialize (`JSON.parse` throws), or a
deserialized value. -/
inductive CacheRead (α : Type) where
  | missing : CacheRead α
  | corrupt : CacheRead α
  | value : α → CacheRead α
deriving Repr, DecidableEq

/-- Replace an undeserializable cache payload by an absent one; used to state
that corrupt payloads are handled exactly like cache misses. -/
def CacheRead.asMiss : CacheRead α → CacheRead α
  | .corrupt => .missing
  | r => r

/-- `getSurahCacheKey` from `src/utils/api.ts`: key of the per-chapter verse
list, including the edition. -/
def getSurahCacheKey (surahNumber : Int) (edition : String) : String :=
  "surah-" ++ toString surahNumber ++ "-" ++ edition

/-- `getSurahListCacheKey` from `src/utils/api.ts`: key of the chapter list,
including the edition. -/
def getSurahListCacheKey (edition : String) : String :=
  "surahs-" ++ edition

/-- `tryGetSurahInfoFromCache`: read the cached chapter list and find the
chapter with the given number; a missing or undeserializable payload, or an
absent chapter, yields `null`. -/
def tryGetSurahInfoFromCache (surahNumber : Int) (edition : String)
    (listStore : String → CacheRead (List Surah)) : Option Surah :=
  match listStore (getSurahListCacheKey edition) with
  | .missing => none
  | .corrupt => none
  | .value surahList => surahList.find? fun s => (s.number : Int) == surahNumber

/-- Number of `console.error` calls made by `tryGetSurahInfoFromCache`: one
exactly when the cached chapter list fails to deserialize. -/
def tryGetSurahInfoLogCount (edition : String)
    (listStore : String → CacheRead (List Surah)) : Nat :=
  match listStore (getSurahListCacheKey edition) with
  | .corrupt => 1
  | _ => 0

/-- `attachSurahInfo`: attach chapter info to a verse unless it already
carries the same chapter. -/
def attachSurahInfo (ayah : Ayah) (surahInfo : Option Surah) : Ayah :=
  match surahInfo with
  | none => ayah
  | some info =>
      match ayah.surah with
      | some s => if s.number == info.number then ayah else { ayah with surah := some info }
      | none => { ayah with surah := some info }

/-- `tryGetAyahFromSurahCache`: read the cached verse list of one chapter,
find the verse with the given `numberInSurah`, and attach cached chapter
info; any missing or undeserializable payload yields `null`. -/
def tryGetAyahFromSurahCache (surahNumber ayahNumber : Int) (edition : String)
    (ayahStore : String → CacheRead (List Ayah))
    (listStore : String → CacheRead (List Surah)) : Option Ayah :=
  match ayahStore (getSurahCacheKey surahNumber edition) with
  | .missing => none
  | .corrupt => none
  | .value ayahs =>
      match ayahs.find? fun item => (item.numberInSurah : Int) == ayahNumber with
      | none => none
      | some ayah => some (attachSurahInfo ayah (tryGetSurahInfoFromCache surahNumber edition listStore))

/-- Number of `console.error` calls made by `tryGetAyahFromSurahCache`: one
when the chapter's verse list fails to deserialize, plus the logging of the
nested chapter-list read when it is reached. -/
def tryGetAyahFromSurahCacheLogCount (surahNumber ayahNumber : Int) (edition : String)
    (ayahStore : String → CacheRead (List Ayah))
    (listStore : String → CacheRead (List Surah)) : Nat :=
  match ayahStore (getSurahCacheKey surahNumber edition) with
  | .missing => 0
  | .corrupt => 1
  | .value ayahs =>
      match ayahs.find? fun item => (item.numberInSurah : Int) == ayahNumber with
      | none => 0
      | some _ => tryGetSurahInfoLogCount edition listStore

/-- `reference.split(/[:\x2f]/)` on the character list: split at every colon
or slash, keeping empty segments. -/
def splitCharsOn : List Char → List (List Char)
  | [] => [[]]
  | c :: rest =>
      if c = ':' ∨ c = '/' then [] :: splitCharsOn rest
      else
        match splitCharsOn rest with
        | [] => [[c]]
        | g :: gs => (c :: g) :: gs

/-- Numeric value of a digit string (most significant first). -/
def digitsToNat (ds : List Char) : Nat :=
  ds.foldl (fun acc c => acc * 10 + (c.toNat - 48)) 0

/-- The digit-prefix part of `Number.parseInt(s, 10)`: value of the longest
leading run of decimal digits, `NaN` (here `none`) when there is none. -/
def digitsValue (cs : List Char) : Option Nat :=
  let ds := cs.takeWhile Char.isDigit
  if ds.isEmpty then none else some (digitsToNat ds)

/-- `s.trim()` at the character level: drop whitespace on both ends. -/
def trimChars (cs : List Char) : List Char :=
  ((cs.dropWhile Char.isWhitespace).reverse.dropWhile Char.isWhitespace).reverse

/-- `Number.parseInt(s, 10)` on an already-trimmed character list: optional
sign, then the longest run of decimal digits; `none` models `NaN`. -/
def parseIntChars : List Char → Option Int
  | '-' :: rest => (digitsValue rest).map fun n => -(n : Int)
  | '+' :: rest => (digitsValue rest).map fun n => (n : Int)
  | cs => (digitsValue cs).map fun n => (n : Int)

/-- `parseReference` from `src/utils/api.ts`: split on colon/slash, require
two nonempty leading parts, trim and parse each as a base-10 integer. -/
def parseReference (reference : String) : Option (Int × Int) :=
  match splitCharsOn reference.toList with
  | rawSurah :: rawAyah :: _ =>
      if rawSurah.isEmpty ∨ rawAyah.isEmpty then none
      else
        match parseIntChars (trimChars rawSurah), parseIntChars (trimChars rawAyah) with
        | some s, some a => some (s, a)
        | _, _ => none
  | _ => none

/-- The network path of `getAyahByReference` applied to the parsed remote
response (`Except.error` models a thrown/failed request): demultiplex by
edition identifier, return `null` when the translation edition is absent,
otherwise drop the `edition` tag and attach the Arabic edition's text. -/
def fetchAyahFromResponse (userEdition arabicEditionId : String)
    (response : Except Unit (List AyahEditionResponse)) : Option Ayah :=
  match response with
  | .error _ => none
  | .ok editions =>
      match editions.find? fun e => e.edition == userEdition with
      | none => none
      | some te =>
          some { te.ayah with
                 arabicText := (editions.find? fun e => e.edition == arabicEditionId).map
                   fun e => e.ayah.text }

/-- `getAyahByReference` from `src/utils/api.ts` (lines 321-357), with the
cache contents and the remote response passed in; the second component
counts network requests (0 on a cache hit, 1 otherwise). -/
def getAyahByReference (userEdition arabicEditionId : String) (reference : String)
    (ayahStore : String → CacheRead (List Ayah))
    (listStore : String → CacheRead (List Surah))
    (response : Except Unit (List AyahEditionResponse)) : Option Ayah × Nat :=
  match parseReference reference with
  | some parsed =>
      match tryGetAyahFromSurahCache parsed.1 parsed.2 userEdition ayahStore listStore with
      | some cachedAyah => (some cachedAyah, 0)
      | none => (fetchAyahFromResponse userEdition arabicEditionId response, 1)
  | none => (fetchAyahFromResponse userEdition arabicEditionId response, 1)

/-- A saved verse (`FavoriteAyah` in `src/types`): translation text, optional
Arabic text, verse number, chapter name and chapter number. -/
structure FavoriteAyah where
  text : String
  arabicText : Option String := none
  ayahNumber : Nat
  surah : String
  surahNumber : Nat
deriving Repr, DecidableEq

/-- JS truthiness of an optional string (`favorite.arabicText` as a
condition): `undefined` and the empty string are falsy. -/
def strTruthy : Option String → Bool
  | none => false
  | some s => !s.isEmpty

/-- `ensureArabicText` from `src/utils/api.ts` (lines 113-120), with the
Arabic-text fetch passed in as a function of (chapter, verse) (`none` models
a failed request or an absent text). The second component counts fetches:
one exactly when the stored Arabic text is missing/empty. -/
def ensureArabicText (fetchText : Nat → Nat → Option String)
    (favorite : FavoriteAyah) : FavoriteAyah × Nat :=
  if strTruthy favorite.arabicText then (favorite, 0)
  else
    match fetchText favorite.surahNumber favorite.ayahNumber with
    | none => (favorite, 1)
    | some t => (if t.isEmpty then favorite else { favorite with arabicText := some t }, 1)

/-- `migrateFavoritesIfNeeded` from `src/utils/api.ts` (lines 125-133): if
every entry already has (truthy) Arabic text, return the list with no write
and no fetch; otherwise run `ensureArabicText` over every entry and rewrite
storage once. Components: resulting list, storage-write count, fetch count. -/
def migrateFavoritesIfNeeded (fetchText : Nat → Nat → Option String)
    (favorites : List FavoriteAyah) : List FavoriteAyah × Nat × Nat :=
  if favorites.all fun favorite => strTruthy favorite.arabicText then (favorites, 0, 0)
  else
    ((favorites.map fun favorite => (ensureArabicText fetchText favorite).1), 1,
      (favorites.map fun favorite => (ensureArabicText fetchText favorite).2).sum)

/-- `addAyahToFavorites`: append to the stored list (no deduplication). -/
def addAyahToFavorites (favorites : List FavoriteAyah) (ayah : FavoriteAyah) :
    List FavoriteAyah :=
  favorites ++ [ayah]

/-- `removeAyahFromFavorites`: keep exactly the entries whose
(verse number, chapter number) differs from the given verse's location. -/
def removeAyahFromFavorites (favorites : List FavoriteAyah) (ayah : FavoriteAyah) :
    List FavoriteAyah :=
  favorites.filter fun favorite =>
    favorite.ayahNumber != ayah.ayahNumber || favorite.surahNumber != ayah.surahNumber

/-- `getFavoriteAyahs` (the favorites `list()` operation): read the stored
list and run the migration pass over it. -/
def getFavoriteAyahs (fetchText : Nat → Nat → Option String)
    (stored : List FavoriteAyah) : List FavoriteAyah × Nat × Nat :=
  migrateFavoritesIfNeeded fetchText stored

/-- Whether `sub` occurs contiguously inside the second list. -/
def listInfixCheck (sub : List Char) : List Char → Bool
  | [] => sub.isEmpty
  | c :: rest => List.isPrefixOf sub (c :: rest) || listInfixCheck sub rest

/-- JS `s.includes(sub)`: contiguous substring containment. -/
def strIncludes (s sub : String) : Bool :=
  listInfixCheck sub.toList s.toList

/-- `filterSurahs` from `src/utils/api.ts` (lines 156-166): `undefined` when
the chapter list is null/undefined, otherwise the chapters whose lowercased
english name contains the lowercased search text or whose number string
contains the lowercased search text. -/
def filterSurahs (surahs : Option (List Surah)) (searchText : String) :
    Option (List Surah) :=
  match surahs with
  | none => none
  | some l =>
      some (l.filter fun s =>
        strIncludes s.englishName.toLower searchText.toLower ||
        strIncludes (toString s.number) searchText.toLower)

/-- `normalizeSearchInput` from `src/quran.tsx`: cut the input at the first
colon or slash (trimming the kept part); return it unchanged when neither
occurs. -/
def normalizeSearchInput (value : String) : String :=
  match value.toList.findIdx? (fun c => c = ':' ∨ c = '/') with
  | none => value
  | some i => (String.mk (value.toList.take i)).trim

/-- The `filteredSurahs` memo of `src/quran.tsx` (lines 27-30):
`normalized ? filterSurahs(surahs, normalized) : (surahs ?? undefined)`. -/
def filteredSurahs (surahs : Option (List Surah)) (searchText : String) :
    Option (List Surah) :=
  let normalized := normalizeSearchInput searchText
  if normalized.isEmpty then surahs else filterSurahs surahs normalized

/-- `SURAH_AYAH_REFERENCE_REGEX` (`^(\d{1,3})\s*[:\x2f]\s*(\d{1,3})$`)
applied to the trimmed search text: 1-3 digits, optional whitespace, colon
or slash, optional whitespace, 1-3 digits, end; yields the two parsed
numbers. -/
def matchReference (s : String) : Option (Nat × Nat) :=
  let cs := s.toList
  let d1 := cs.takeWhile Char.isDigit
  let rest1 := cs.dropWhile Char.isDigit
  if d1.length < 1 ∨ d1.length > 3 then none
  else
    match rest1.dropWhile Char.isWhitespace with
    | [] => none
    | c :: rest2 =>
        if c = ':' ∨ c = '/' then
          let rest3 := rest2.dropWhile Char.isWhitespace
          let d2 := rest3.takeWhile Char.isDigit
          let rest4 := rest3.dropWhile Char.isDigit
          if d2.length < 1 ∨ d2.length > 3 ∨ rest4 ≠ [] then none
          else some (digitsToNat d1, digitsToNat d2)
        else none

/-- Outcome of the quick-lookup validation effect of `src/quran.tsx`
(lines 32-75): the input is not a reference at all, a validation error is
surfaced (and `quickReference` stays null, so no fetch effect runs), or a
normalized reference is set (triggering the fetch effect). -/
inductive QuickLookupAction where
  | notReference : QuickLookupAction
  | invalid : String → QuickLookupAction
  | fetch : String → QuickLookupAction
deriving Repr, DecidableEq

/-- Whether a quick-lookup outcome triggers the network-fetch effect (only a
non-null `quickReference` does). -/
def QuickLookupAction.triggersFetch : QuickLookupAction → Bool
  | .fetch _ => true
  | _ => false

/-- The quick-lookup validation of `src/quran.tsx` (lines 32-75) as a
function of the trimmed search text and the (possibly not yet loaded)
chapter list: match the reference regex, then validate chapter range, verse
positivity and — when the chapter list already knows the chapter — the
chapter's verse count. -/
def quickLookup (searchText : String) (surahs : Option (List Surah)) : QuickLookupAction :=
  match matchReference searchText with
  | none => .notReference
  | some (surahNumber, ayahNumber) =>
      if surahNumber < 1 ∨ surahNumber > 114 then
        .invalid "Surah numbers range from 1 to 114"
      else if ayahNumber < 1 then
        .invalid "Ayah numbers must be positive"
      else
        match surahs.bind fun l => l.find? fun s => s.number == surahNumber with
        | some selectedSurah =>
            if ayahNumber > selectedSurah.numberOfAyahs then
              .invalid (selectedSurah.englishName ++ " only has " ++
                toString selectedSurah.numberOfAyahs ++ " ayahs")
            else .fetch (toString surahNumber ++ ":" ++ toString ayahNumber)
        | none => .fetch (toString surahNumber ++ ":" ++ toString ayahNumber)

/-- A concrete verse used by the witnesses: verse number `n`, text `t`. -/
def sampleAyah (n : Nat) (t : String) : Ayah :=
  { number := n, text := t, numberInSurah := n, juz := 1, page := 1,
    hizbQuarter := 1, ruku := 1, manzil := 1, sajda := false }

/-- A concrete two-edition response used by the C1 witness. -/
def sampleEditions : List EditionPayload :=
  [⟨"en", [sampleAyah 1 "t1", sampleAyah 2 "t2"]⟩, ⟨"ar", [sampleAyah 1 "a1"]⟩]

/-- A concrete chapter used by the witnesses. -/
def sampleSurah : Surah :=
  { number := 2, englishName := "Al-Baqarah", englishNameTranslation := "The Cow",
    numberOfAyahs := 286, revelationType := "Medinan" }

/-- A concrete favorite lacking Arabic text, used by witnesses and
counterexamples. -/
def sampleFavoriteNoArabic : FavoriteAyah :=
  { text := "In the name of Allah", arabicText := none, ayahNumber := 1,
    surah := "Al-Faatiha", surahNumber := 1 }

/-- A concrete favorite that already has Arabic text. -/
def sampleFavoriteWithArabic : FavoriteAyah :=
  { text := "Allah - there is no deity except Him", arabicText := some "ayat al-kursi",
    ayahNumber := 255, surah := "Al-Baqarah", surahNumber := 2 }

/-- Concrete per-chapter verse-list cache used by the witnesses: chapter 2
under edition "en" holds one verse. -/
def sampleAyahStore : String → CacheRead (List Ayah) :=
  fun k => if k = getSurahCacheKey 2 "en" then .value [sampleAyah 255 "v255"] else .missing

/-- Concrete chapter-list cache used by the witnesses. -/
def sampleListStore : String → CacheRead (List Surah) :=
  fun k => if k = getSurahListCacheKey "en" then .value [sampleSurah] else .missing

/-- A cache with nothing in it. -/
def emptyAyahStore : String → CacheRead (List Ayah) := fun _ => .missing

/-- A chapter-list cache with nothing in it. -/
def emptyListStore : String → CacheRead (List Surah) := fun _ => .missing

/-- A cache whose every payload fails to deserialize. -/
def corruptAyahStore : String → CacheRead (List Ayah) := fun _ => .corrupt

/-- A chapter-list cache whose payload fails to deserialize. -/
def corruptListStore : String → CacheRead (List Surah) := fun _ => .corrupt

/-- Specification of `mapGetLast`: it yields the text of some list element
with the requested verse number, and `none` exactly when no element has it. -/
theorem mapGetLast_spec (l : List Ayah) (k : Nat) :
    (mapGetLast l k = none ∧ ∀ a ∈ l, a.numberInSurah ≠ k) ∨
    (∃ a ∈ l, a.numberInSurah = k ∧ mapGetLast l k = some a.text) := by
  unfold mapGetLast
  rcases hfind : l.reverse.find? (fun a => a.numberInSurah == k) with _ | a
  · left
    rw [hfind]
    refine ⟨rfl, fun a ha hk => ?_⟩
    have := List.find?_eq_none.mp hfind a (List.mem_reverse.mpr ha)
    simp [hk] at this
  · right
    rw [hfind]
    refine ⟨a, List.mem_reverse.mp (List.mem_of_find?_eq_some hfind), ?_, rfl⟩
    have := List.find?_some hfind
    simpa using this

/-- C1: when the user's translation edition is present in the remote
response, `getAyahs` returns one element per translation verse, in order,
each equal to the translation verse except for `arabicText`, which is the
text of an Arabic-edition verse with the same `numberInSurah` when one
exists and `none` when none exists. -/
theorem getAyahs_edition_merge (userEd arEd : String) (editions : List EditionPayload)
    (te : EditionPayload)
    (hte : editions.find? (fun e => e.identifier == userEd) = some te) :
    (getAyahs userEd arEd editions).length = te.ayahs.length ∧
    ∀ i (hi : i < te.ayahs.length) (hr : i < (getAyahs userEd arEd editions).length),
      ((getAyahs userEd arEd editions)[i] =
        { te.ayahs[i] with arabicText := (getAyahs userEd arEd editions)[i].arabicText }) ∧
      (((getAyahs userEd arEd editions)[i].arabicText = none ∧
          ∀ a ∈ arabicAyahsOf editions arEd,
            a.numberInSurah ≠ te.ayahs[i].numberInSurah) ∨
        (∃ a ∈ arabicAyahsOf editions arEd,
          a.numberInSurah = te.ayahs[i].numberInSurah ∧
          (getAyahs userEd arEd editions)[i].arabicText = some a.text)) := by
  have hres : getAyahs userEd arEd editions =
      te.ayahs.map fun ayah =>
        { ayah with arabicText := mapGetLast (arabicAyahsOf editions arEd) ayah.numberInSurah } := by
    unfold getAyahs
    rw [hte]
  constructor
  · rw [hres, List.length_map]
  · intro i hi hr
    have hget : (getAyahs userEd arEd editions)[i] =
        { te.ayahs[i] with
            arabicText := mapGetLast (arabicAyahsOf editions arEd) te.ayahs[i].numberInSurah } := by
      simp only [hres, List.getElem_map]
    refine ⟨by rw [hget], ?_⟩
    rw [hget]
    rcases mapGetLast_spec (arabicAyahsOf editions arEd) te.ayahs[i].numberInSurah with
      ⟨hnone, hall⟩ | ⟨a, hmem, hkey, htext⟩
    · exact Or.inl ⟨hnone, hall⟩
    · exact Or.inr ⟨a, hmem, hkey, htext⟩

/-- Witness for C1 at a concrete response: translation edition with two
verses, Arabic edition supplying a counterpart only for the first. -/
theorem getAyahs_edition_merge_witness :
    (getAyahs "en" "ar" sampleEditions).length =
      (⟨"en", [sampleAyah 1 "t1", sampleAyah 2 "t2"]⟩ : EditionPayload).ayahs.length :=
  (getAyahs_edition_merge "en" "ar" sampleEditions
    ⟨"en", [sampleAyah 1 "t1", sampleAyah 2 "t2"]⟩ (by decide)).1

/-- Shared cache-hit computation: when the reference parses and the cached
verse list for that chapter contains the verse, `getAyahByReference` returns
the cached verse (with cached chapter info attached) and performs no
network request. -/
theorem getAyahByReference_cache_hit_eq (u ar ref : String)
    (ayahStore : String → CacheRead (List Ayah))
    (listStore : String → CacheRead (List Surah))
    (resp : Except Unit (List AyahEditionResponse))
    (s a : Int) (ayahs : List Ayah) (v : Ayah)
    (hparse : parseReference ref = some (s, a))
    (hcache : ayahStore (getSurahCacheKey s u) = .value ayahs)
    (hfind : ayahs.find? (fun item => (item.numberInSurah : Int) == a) = some v) :
    getAyahByReference u ar ref ayahStore listStore resp =
      (some (attachSurahInfo v (tryGetSurahInfoFromCache s u listStore)), 0) := by
  have hcachehit : tryGetAyahFromSurahCache s a u ayahStore listStore =
      some (attachSurahInfo v (tryGetSurahInfoFromCache s u listStore)) := by
    unfold tryGetAyahFromSurahCache
    simp only [hcache, hfind]
  unfold getAyahByReference
  rw [hparse]
  simp only [hcachehit]

/-- C2: for every reference parsing to a numeric (chapter, verse) pair whose
chapter's cached verse list (under the current edition) contains a verse
with that `numberInSurah`, `getAyahByReference` returns that cached verse —
with chapter info attached from the cached chapter list when available —
and issues zero network requests, whatever the network would answer. -/
theorem getAyahByReference_cache_hit (u ar ref : String)
    (ayahStore : String → CacheRead (List Ayah))
    (listStore : String → CacheRead (List Surah))
    (resp : Except Unit (List AyahEditionResponse))
    (s a : Int) (ayahs : List Ayah) (v : Ayah)
    (hparse : parseReference ref = some (s, a))
    (hcache : ayahStore (getSurahCacheKey s u) = .value ayahs)
    (hfind : ayahs.find? (fun item => (item.numberInSurah : Int) == a) = some v) :
    getAyahByReference u ar ref ayahStore listStore resp =
      (some (attachSurahInfo v (tryGetSurahInfoFromCache s u listStore)), 0) :=
  getAyahByReference_cache_hit_eq u ar ref ayahStore listStore resp s a ayahs v
    hparse hcache hfind

/-- Witness for C2: looking up "2:255" with chapter 2's verse list cached
returns the cached verse with zero network requests, even though the
network request would fail. -/
theorem getAyahByReference_cache_hit_witness :
    getAyahByReference "en" "ar" "2:255" sampleAyahStore sampleListStore (Except.error ()) =
      (some (attachSurahInfo (sampleAyah 255 "v255")
        (tryGetSurahInfoFromCache 2 "en" sampleListStore)), 0) :=
  getAyahByReference_cache_hit "en" "ar" "2:255" sampleAyahStore sampleListStore
    (Except.error ()) 2 255 [sampleAyah 255 "v255"] (sampleAyah 255 "v255")
    (by decide) (by decide) (by decide)

/-- C10: the per-chapter verse-list cache alone suffices for a cache hit:
when it contains the requested verse but the chapter-list cache entry is
absent or unreadable, `getAyahByReference` still returns the cached verse
unchanged (no chapter info attached) with zero network requests. -/
theorem getAyahByReference_cache_hit_without_surah_list (u ar ref : String)
    (ayahStore : String → CacheRead (List Ayah))
    (listStore : String → CacheRead (List Surah))
    (resp : Except Unit (List AyahEditionResponse))
    (s a : Int) (ayahs : List Ayah) (v : Ayah)
    (hparse : parseReference ref = some (s, a))
    (hcache : ayahStore (getSurahCacheKey s u) = .value ayahs)
    (hfind : ayahs.find? (fun item => (item.numberInSurah : Int) == a) = some v)
    (hlist : listStore (getSurahListCacheKey u) = .missing ∨
      listStore (getSurahListCacheKey u) = .corrupt) :
    getAyahByReference u ar ref ayahStore listStore resp = (some v, 0) := by
  have hinfo : tryGetSurahInfoFromCache s u listStore = none := by
    unfold tryGetSurahInfoFromCache
    rcases hlist with h | h <;> rw [h]
  have := getAyahByReference_cache_hit_eq u ar ref ayahStore listStore resp s a ayahs v
    hparse hcache hfind
  rw [this, hinfo]
  rfl

/-- Witness for C10: looking up "2:255" with the verse list cached but the
chapter-list cache empty returns the bare cached verse, no network request. -/
theorem getAyahByReference_cache_hit_without_surah_list_witness :
    getAyahByReference "en" "ar" "2:255" sampleAyahStore emptyListStore (Except.error ()) =
      (some (sampleAyah 255 "v255"), 0) :=
  getAyahByReference_cache_hit_without_surah_list "en" "ar" "2:255" sampleAyahStore
    emptyListStore (Except.error ()) 2 255 [sampleAyah 255 "v255"] (sampleAyah 255 "v255")
    (by decide) (by decide) (by decide) (Or.inl rfl)

/-- C6: when the user's translation edition is absent from the remote
response, `getAyahs` returns the empty list and `getAyahByReference` (on a
cache miss) returns `none` — even when the Arabic edition is present. -/
theorem missing_translation_edition_empty (u ar ref : String)
    (eds : List EditionPayload) (edsA : List AyahEditionResponse)
    (ayahStore : String → CacheRead (List Ayah))
    (listStore : String → CacheRead (List Surah))
    (h1 : ∀ e ∈ eds, e.identifier ≠ u)
    (h2 : ∀ e ∈ edsA, e.edition ≠ u)
    (hmiss : ∀ p : Int × Int, parseReference ref = some p →
      tryGetAyahFromSurahCache p.1 p.2 u ayahStore listStore = none) :
    getAyahs u ar eds = [] ∧
    getAyahByReference u ar ref ayahStore listStore (Except.ok edsA) = (none, 1) := by
  have hfind1 : eds.find? (fun e => e.identifier == u) = none := by
    rw [List.find?_eq_none]
    intro e he
    simpa using h1 e he
  have hfind2 : edsA.find? (fun e => e.edition == u) = none := by
    rw [List.find?_eq_none]
    intro e he
    simpa using h2 e he
  have hnet : fetchAyahFromResponse u ar (Except.ok edsA) = none := by
    unfold fetchAyahFromResponse
    simp only [hfind2]
  constructor
  · unfold getAyahs
    rw [hfind1]
  · rcases hp : parseReference ref with _ | p
    · simp only [getAyahByReference, hp, hnet]
    · simp only [getAyahByReference, hp, hmiss p hp, hnet]

/-- Witness for C6: a response carrying only the Arabic edition, an empty
cache and the reference "2:255" yield the empty sentinels. -/
theorem missing_translation_edition_empty_witness :
    getAyahs "en" "ar" [⟨"ar", [sampleAyah 1 "a1"]⟩] = [] ∧
    getAyahByReference "en" "ar" "2:255" emptyAyahStore emptyListStore
      (Except.ok [⟨"ar", sampleAyah 1 "a1"⟩]) = (none, 1) :=
  missing_translation_edition_empty "en" "ar" "2:255"
    [⟨"ar", [sampleAyah 1 "a1"]⟩] [⟨"ar", sampleAyah 1 "a1"⟩]
    emptyAyahStore emptyListStore
    (by decide) (by decide) (by intro p hp; rfl)

/-- Replacing an undeserializable chapter-list payload by an absent one does
not change `tryGetSurahInfoFromCache`. -/
theorem tryGetSurahInfoFromCache_asMiss (s : Int) (ed : String)
    (listStore : String → CacheRead (List Surah)) :
    tryGetSurahInfoFromCache s ed (fun k => (listStore k).asMiss) =
      tryGetSurahInfoFromCache s ed listStore := by
  unfold tryGetSurahInfoFromCache
  rcases h : listStore (getSurahListCacheKey ed) with _ | _ | l <;>
    simp only [h, CacheRead.asMiss]

/-- Replacing undeserializable cache payloads by absent ones does not change
`tryGetAyahFromSurahCache`. -/
theorem tryGetAyahFromSurahCache_asMiss (s a : Int) (ed : String)
    (ayahStore : String → CacheRead (List Ayah))
    (listStore : String → CacheRead (List Surah)) :
    tryGetAyahFromSurahCache s a ed (fun k => (ayahStore k).asMiss)
        (fun k => (listStore k).asMiss) =
      tryGetAyahFromSurahCache s a ed ayahStore listStore := by
  unfold tryGetAyahFromSurahCache
  rw [tryGetSurahInfoFromCache_asMiss]
  rcases h : ayahStore (getSurahCacheKey s ed) with _ | _ | l <;>
    simp only [h, CacheRead.asMiss]

/-- C7: during single-verse lookup, a cache payload that fails to
deserialize is treated exactly as a cache miss — both cache readers yield
the same result as with nothing cached and the whole lookup proceeds
identically — the failure is logged via `console.error` (count 1), and no
error is surfaced: on a corrupt payload the readers return `none`, never an
error value. -/
theorem corrupt_cache_is_miss (s a : Int) (ed u ar ref : String)
    (ayahStore : String → CacheRead (List Ayah))
    (listStore : String → CacheRead (List Surah))
    (resp : Except Unit (List AyahEditionResponse)) :
    (tryGetSurahInfoFromCache s ed (fun k => (listStore k).asMiss) =
      tryGetSurahInfoFromCache s ed listStore) ∧
    (tryGetAyahFromSurahCache s a ed (fun k => (ayahStore k).asMiss)
        (fun k => (listStore k).asMiss) =
      tryGetAyahFromSurahCache s a ed ayahStore listStore) ∧
    (getAyahByReference u ar ref (fun k => (ayahStore k).asMiss)
        (fun k => (listStore k).asMiss) resp =
      getAyahByReference u ar ref ayahStore listStore resp) ∧
    (listStore (getSurahListCacheKey ed) = .corrupt →
      tryGetSurahInfoFromCache s ed listStore = none ∧
      tryGetSurahInfoLogCount ed listStore = 1) ∧
    (ayahStore (getSurahCacheKey s ed) = .corrupt →
      tryGetAyahFromSurahCache s a ed ayahStore listStore = none ∧
      tryGetAyahFromSurahCacheLogCount s a ed ayahStore listStore = 1) := by
  refine ⟨tryGetSurahInfoFromCache_asMiss s ed listStore,
    tryGetAyahFromSurahCache_asMiss s a ed ayahStore listStore, ?_, ?_, ?_⟩
  · unfold getAyahByReference
    rcases hp : parseReference ref with _ | p
    · rfl
    · simp only [tryGetAyahFromSurahCache_asMiss]
  · intro h
    constructor
    · unfold tryGetSurahInfoFromCache
      simp only [h]
    · unfold tryGetSurahInfoLogCount
      simp only [h]
  · intro h
    constructor
    · unfold tryGetAyahFromSurahCache
      simp only [h]
    · unfold tryGetAyahFromSurahCacheLogCount
      simp only [h]

/-- Witness for C7: with a corrupt per-chapter cache entry the verse reader
reports a miss and logs exactly one failure. -/
theorem corrupt_cache_is_miss_witness :
    tryGetAyahFromSurahCache 2 255 "en" corruptAyahStore corruptListStore = none ∧
    tryGetAyahFromSurahCacheLogCount 2 255 "en" corruptAyahStore corruptListStore = 1 :=
  (corrupt_cache_is_miss 2 255 "en" "en" "ar" "2:255" corruptAyahStore corruptListStore
    (Except.error ())).2.2.2.2 rfl

/-- `ensureArabicText` never changes an entry's location fields. -/
theorem ensureArabicText_location (fetchText : Nat → Nat → Option String)
    (favorite : FavoriteAyah) :
    ((ensureArabicText fetchText favorite).1).ayahNumber = favorite.ayahNumber ∧
    ((ensureArabicText fetchText favorite).1).surahNumber = favorite.surahNumber := by
  unfold ensureArabicText
  split
  · exact ⟨rfl, rfl⟩
  · split
    · exact ⟨rfl, rfl⟩
    · split
      · exact ⟨rfl, rfl⟩
      · exact ⟨rfl, rfl⟩

/-- `ensureArabicText` leaves an entry with (truthy) Arabic text unchanged. -/
theorem ensureArabicText_of_truthy (fetchText : Nat → Nat → Option String)
    (favorite : FavoriteAyah) (h : strTruthy favorite.arabicText = true) :
    (ensureArabicText fetchText favorite).1 = favorite := by
  unfold ensureArabicText
  rw [if_pos h]

/-- Every stored entry survives the migration pass in repaired form. -/
theorem ensure_mem_migrate (fetchText : Nat → Nat → Option String)
    (l : List FavoriteAyah) (y : FavoriteAyah) (hy : y ∈ l) :
    (ensureArabicText fetchText y).1 ∈ (migrateFavoritesIfNeeded fetchText l).1 := by
  unfold migrateFavoritesIfNeeded
  by_cases hall : (l.all fun f => strTruthy f.arabicText) = true
  · simp only [hall, if_true]
    have ht : strTruthy y.arabicText = true := by
      have := List.all_eq_true.mp hall y hy
      simpa using this
    rw [ensureArabicText_of_truthy fetchText y ht]
    exact hy
  · simp only [hall, if_false, Bool.false_eq_true, reduceIte]
    exact List.mem_map_of_mem (fun f => (ensureArabicText fetchText f).1) hy

/-- Every element of the migrated list shares its location with some stored
entry. -/
theorem migrate_mem_src (fetchText : Nat → Nat → Option String)
    (l : List FavoriteAyah) (z : FavoriteAyah)
    (hz : z ∈ (migrateFavoritesIfNeeded fetchText l).1) :
    ∃ y ∈ l, z.ayahNumber = y.ayahNumber ∧ z.surahNumber = y.surahNumber := by
  unfold migrateFavoritesIfNeeded at hz
  by_cases hall : (l.all fun f => strTruthy f.arabicText) = true
  · rw [if_pos hall] at hz
    exact ⟨z, hz, rfl, rfl⟩
  · rw [if_neg hall] at hz
    simp only [List.mem_map] at hz
    obtain ⟨y, hy, hzy⟩ := hz
    obtain ⟨h1, h2⟩ := ensureArabicText_location fetchText y
    exact ⟨y, hy, by rw [← hzy]; exact h1, by rw [← hzy]; exact h2⟩

/-- The keep-condition of `removeAyahFromFavorites` holds exactly for
entries at a different location. -/
theorem remove_keep_iff (f x : FavoriteAyah) :
    ((f.ayahNumber != x.ayahNumber || f.surahNumber != x.surahNumber) = true) ↔
      ¬(f.ayahNumber = x.ayahNumber ∧ f.surahNumber = x.surahNumber) := by
  simp only [Bool.or_eq_true, bne_iff_ne, ne_eq]
  tauto

/-- C8 (migration idempotence): when every stored favorite already has
Arabic text, `list()` returns the stored list unchanged with zero storage
writes and zero Arabic-text fetches. -/
theorem list_idempotent_when_backfilled (fetchText : Nat → Nat → Option String)
    (stored : List FavoriteAyah)
    (h : (stored.all fun f => strTruthy f.arabicText) = true) :
    getFavoriteAyahs fetchText stored = (stored, 0, 0) := by
  unfold getFavoriteAyahs migrateFavoritesIfNeeded
  rw [if_pos h]

/-- Witness for C8 on a concrete fully-backfilled store. -/
theorem list_idempotent_when_backfilled_witness :
    getFavoriteAyahs (fun _ _ => some "x") [sampleFavoriteWithArabic] =
      ([sampleFavoriteWithArabic], 0, 0) :=
  list_idempotent_when_backfilled (fun _ _ => some "x") [sampleFavoriteWithArabic]
    (by decide)

/-- Counterexample to C4 as stated: with a single entry lacking Arabic text
and every fetch failing, no entry's backfill succeeds (the list is returned
unchanged), yet storage is rewritten once. -/
theorem migrate_writes_without_successful_backfill :
    (migrateFavoritesIfNeeded (fun _ _ => none) [sampleFavoriteNoArabic]).2.1 = 1 ∧
    (migrateFavoritesIfNeeded (fun _ _ => none) [sampleFavoriteNoArabic]).1 =
      [sampleFavoriteNoArabic] := by
  decide

/-- C4 (amended): during `list()` the favorites list is rewritten to storage
at most once, and it is rewritten exactly when some stored entry lacked
(truthy) Arabic text before the pass — regardless of whether any backfill
fetch succeeds. -/
theorem migrate_single_write_iff_missing_arabic (fetchText : Nat → Nat → Option String)
    (favorites : List FavoriteAyah) :
    (migrateFavoritesIfNeeded fetchText favorites).2.1 ≤ 1 ∧
    ((migrateFavoritesIfNeeded fetchText favorites).2.1 = 1 ↔
      ∃ f ∈ favorites, strTruthy f.arabicText = false) := by
  unfold migrateFavoritesIfNeeded
  by_cases hall : (favorites.all fun f => strTruthy f.arabicText) = true
  · rw [if_pos hall]
    refine ⟨by simp, ?_⟩
    simp only [show (0 : Nat) ≠ 1 from by omega, false_iff]  
    rintro ⟨f, hf, hfalse⟩
    have := List.all_eq_true.mp hall f hf
    simp only [this] at hfalse
    exact absurd hfalse (by simp)
  · rw [if_neg hall]
    refine ⟨le_refl 1, ?_⟩
    simp only [true_iff, eq_self_iff_true]
    have : ¬ ∀ f ∈ favorites, strTruthy f.arabicText = true := by
      intro hforall
      exact hall (List.all_eq_true.mpr fun f hf => by simpa using hforall f hf)
    push_neg at this
    obtain ⟨f, hf, hne⟩ := this
    exact ⟨f, hf, by simpa using hne⟩

/-- Witness for C4 (amended) at a concrete store and failing fetch. -/
theorem migrate_single_write_iff_missing_arabic_witness :
    (migrateFavoritesIfNeeded (fun _ _ => none) [sampleFavoriteNoArabic]).2.1 ≤ 1 :=
  (migrate_single_write_iff_missing_arabic (fun _ _ => none) [sampleFavoriteNoArabic]).1

/-- Counterexample to C5 as stated: after `add(x)` for an `x` without Arabic
text, `list()` backfills the entry during its migration pass, so the listed
entry is not equal to `x` itself. -/
theorem add_then_list_not_exact :
    ¬ sampleFavoriteNoArabic ∈
      (getFavoriteAyahs (fun _ _ => some "bismillah")
        (addAyahToFavorites [] sampleFavoriteNoArabic)).1 := by
  decide

/-- C5 (amended): `add(x)` followed by `list()` contains the entry `x` up to
the Arabic-text backfill (exactly `x` whenever `x` already has Arabic text);
`remove(x)` followed by `list()` contains no entry at `x`'s
(verse number, chapter number) location — duplicates included — while every
stored entry at another location is still represented at its location. -/
theorem favorites_round_trip (fetchText : Nat → Nat → Option String)
    (stored : List FavoriteAyah) (x : FavoriteAyah) :
    ((ensureArabicText fetchText x).1 ∈
        (getFavoriteAyahs fetchText (addAyahToFavorites stored x)).1 ∧
      (strTruthy x.arabicText = true →
        x ∈ (getFavoriteAyahs fetchText (addAyahToFavorites stored x)).1)) ∧
    (∀ f ∈ (getFavoriteAyahs fetchText (removeAyahFromFavorites stored x)).1,
      ¬(f.ayahNumber = x.ayahNumber ∧ f.surahNumber = x.surahNumber)) ∧
    (∀ g ∈ stored, ¬(g.ayahNumber = x.ayahNumber ∧ g.surahNumber = x.surahNumber) →
      ∃ f ∈ (getFavoriteAyahs fetchText (removeAyahFromFavorites stored x)).1,
        f.ayahNumber = g.ayahNumber ∧ f.surahNumber = g.surahNumber) := by
  have hmemadd : x ∈ addAyahToFavorites stored x := by
    simp [addAyahToFavorites]
  refine ⟨⟨ensure_mem_migrate fetchText _ x hmemadd, ?_⟩, ?_, ?_⟩
  · intro ht
    have hmem := ensure_mem_migrate fetchText _ x hmemadd
    rwa [ensureArabicText_of_truthy fetchText x ht] at hmem
  · intro f hf
    obtain ⟨y, hy, h1, h2⟩ := migrate_mem_src fetchText _ f hf
    have hkeep : (y.ayahNumber != x.ayahNumber || y.surahNumber != x.surahNumber) = true := by
      unfold removeAyahFromFavorites at hy
      exact (List.mem_filter.mp hy).2
    have hne := (remove_keep_iff y x).mp hkeep
    rintro ⟨e1, e2⟩
    exact hne ⟨h1.symm.trans e1, h2.symm.trans e2⟩
  · intro g hg hloc
    have hkeep : (g.ayahNumber != x.ayahNumber || g.surahNumber != x.surahNumber) = true :=
      (remove_keep_iff g x).mpr hloc
    have hgfilter : g ∈ removeAyahFromFavorites stored x := by
      unfold removeAyahFromFavorites
      exact List.mem_filter.mpr ⟨hg, hkeep⟩
    exact ⟨(ensureArabicText fetchText g).1,
      ensure_mem_migrate fetchText _ g hgfilter,
      (ensureArabicText_location fetchText g).1,
      (ensureArabicText_location fetchText g).2⟩

/-- Witness for C5 (amended): adding an already-backfilled favorite to an
empty store and listing yields it back unchanged. -/
theorem favorites_round_trip_witness :
    sampleFavoriteWithArabic ∈
      (getFavoriteAyahs (fun _ _ => none)
        (addAyahToFavorites [] sampleFavoriteWithArabic)).1 :=
  (favorites_round_trip (fun _ _ => none) [] sampleFavoriteWithArabic).1.2 (by decide)

/-- C3: for every search input matching the reference pattern, an
out-of-range chapter number, a non-positive verse number, or — when the
chapter list already knows the chapter — a verse number exceeding the
chapter's verse count each surface their validation error (the last naming
the chapter's english name and its verse count), and none of them triggers
the network-fetch effect. -/
theorem quickLookup_validation (txt : String) (surahs : Option (List Surah)) (s a : Nat)
    (hm : matchReference txt = some (s, a)) :
    ((s < 1 ∨ s > 114) →
      quickLookup txt surahs = .invalid "Surah numbers range from 1 to 114" ∧
      (quickLookup txt surahs).triggersFetch = false) ∧
    (1 ≤ s → s ≤ 114 → a < 1 →
      quickLookup txt surahs = .invalid "Ayah numbers must be positive" ∧
      (quickLookup txt surahs).triggersFetch = false) ∧
    (∀ sel : Surah, 1 ≤ s → s ≤ 114 → 1 ≤ a →
      (surahs.bind fun l => l.find? fun su => su.number == s) = some sel →
      a > sel.numberOfAyahs →
      quickLookup txt surahs = .invalid (sel.englishName ++ " only has " ++
        toString sel.numberOfAyahs ++ " ayahs") ∧
      (quickLookup txt surahs).triggersFetch = false) := by
  refine ⟨?_, ?_, ?_⟩
  · intro h
    have heq : quickLookup txt surahs = .invalid "Surah numbers range from 1 to 114" := by
      unfold quickLookup
      rw [hm]
      simp only [if_pos h]
    exact ⟨heq, by rw [heq]; rfl⟩
  · intro h1 h2 h3
    have heq : quickLookup txt surahs = .invalid "Ayah numbers must be positive" := by
      unfold quickLookup
      rw [hm]
      simp only [if_neg (show ¬(s < 1 ∨ s > 114) by omega), if_pos h3]
    exact ⟨heq, by rw [heq]; rfl⟩
  · intro sel h1 h2 h3 hfind hgt
    have heq : quickLookup txt surahs = .invalid (sel.englishName ++ " only has " ++
        toString sel.numberOfAyahs ++ " ayahs") := by
      unfold quickLookup
      rw [hm]
      simp only [if_neg (show ¬(s < 1 ∨ s > 114) by omega),
        if_neg (show ¬(a < 1) by omega), hfind, if_pos hgt]
    exact ⟨heq, by rw [heq]; rfl⟩

/-- Witness for C3: the input "999:1" is rejected with the chapter-range
error and triggers no fetch. -/
theorem quickLookup_validation_witness :
    quickLookup "999:1" none = .invalid "Surah numbers range from 1 to 114" ∧
    (quickLookup "999:1" none).triggersFetch = false :=
  (quickLookup_validation "999:1" none 999 1 (by decide)).1 (Or.inr (by omega))

/-- Counterexample to C9 as stated: with the chapter list loaded and an
empty search input, the filter pipeline returns the full list — not
`undefined` — so "returns undefined exactly when no filter is applied yet /
the input is empty" fails. -/
theorem filteredSurahs_empty_input_not_undefined :
    filteredSurahs (some [sampleSurah]) "" = some [sampleSurah] ∧
    filteredSurahs (some [sampleSurah]) "" ≠ none := by
  decide

/-- C9 (amended): given the chapter list, the filter returns exactly the
subset of chapters whose lowercased english name or chapter-number string
contains the lowercased search string (digit strings are unaffected by
lowercasing, so this is case-insensitive containment); it returns
`undefined` exactly when the chapter list itself is absent; with the list
present, an empty normalized input yields the full list — distinct from an
empty match set. -/
theorem filterSurahs_spec (l : List Surah) (txt : String) :
    (filterSurahs (some l) txt = some (l.filter fun su =>
      strIncludes su.englishName.toLower txt.toLower ||
      strIncludes (toString su.number) txt.toLower)) ∧
    (∀ su, su ∈ (filterSurahs (some l) txt).getD [] ↔
      su ∈ l ∧ (strIncludes su.englishName.toLower txt.toLower = true ∨
        strIncludes (toString su.number) txt.toLower = true)) ∧
    filterSurahs (some l) txt ≠ none ∧
    filterSurahs none txt = none ∧
    filteredSurahs none txt = none ∧
    (normalizeSearchInput txt = "" → filteredSurahs (some l) txt = some l) ∧
    (normalizeSearchInput txt ≠ "" →
      filteredSurahs (some l) txt = filterSurahs (some l) (normalizeSearchInput txt)) := by
  refine ⟨rfl, ?_, by simp [filterSurahs], rfl, ?_, ?_, ?_⟩
  · intro su
    simp [filterSurahs, List.mem_filter]
  · simp only [filteredSurahs]
    split
    · rfl
    · rfl
  · intro h
    simp only [filteredSurahs, h]
    rfl
  · intro h
    have hne : (normalizeSearchInput txt).isEmpty = false := by
      rcases he : (normalizeSearchInput txt).isEmpty with _ | _
      · rfl
      · exact absurd ((String.isEmpty_iff _).mp he) h
    simp [filteredSurahs, hne]

/-- Witness for C9 (amended): with one loaded chapter and empty input the
full list comes back. -/
theorem filterSurahs_spec_witness :
    filteredSurahs (some [sampleSurah]) "" = some [sampleSurah] :=
  (filterSurahs_spec [sampleSurah] "").2.2.2.2.2.1 rfl
